import Mathlib

/-!
Verification development for the NHI cancer-drug regulation converter
(`converter.py`).  The two core functions, `parse_docx` and
`classify_and_format`, are embedded below as executable Lean functions over
`String` (paragraph texts are the strings handed to the pipeline; reading the
DOCX container itself is an external collaborator and is not modelled).

Modelling conventions:
* Python strings are Lean `String`s; `needle in hay` is contiguous-substring
  search over the code points (`containsSub`).
* `str.strip()` is `strip` (ASCII whitespace; the inputs of interest contain
  no exotic Unicode whitespace).
* `str.split(sep)` for a non-empty separator is `splitOnStr`, implemented
  directly so that it is transparent to kernel evaluation; it agrees with
  Python's semantics (`"".split(sep) = [""]`, trailing separators yield a
  trailing empty piece).
* Python's regexes are prefix matchers here (`re.match` without `$`), so each
  is embedded as the Boolean prefix condition it tests; `\d` is embedded as
  `Char.isDigit` (the documents use ASCII digits).
* `list(found_types_set)` enumerates a Python `set` in an unspecified,
  hash-seed-dependent order.  The classifier therefore takes an explicit
  enumeration function `σ : List String → List String`; a faithful run uses
  any `σ` with `(σ l).Perm l.dedup` (same distinct elements, some order).
  `canonOrd` is one such admissible enumeration.
-/

/-- Boolean: `pre` is a prefix of `l`. -/
def isPrefixB : List Char → List Char → Bool
  | [], _ => true
  | _ :: _, [] => false
  | a :: as, b :: bs => a == b && isPrefixB as bs

/-- Boolean: `needle` occurs as a contiguous sublist of the second argument.
Models Python's `needle in hay` for strings. -/
def isSubB (needle : List Char) : List Char → Bool
  | [] => isPrefixB needle []
  | c :: t => isPrefixB needle (c :: t) || isSubB needle t

/-- Containment test: `containsSub hay needle` models Python's `needle in hay`. -/
def containsSub (hay needle : String) : Bool :=
  isSubB needle.data hay.data

/-- Remove leading and trailing whitespace; models Python's `str.strip()`. -/
def strip (s : String) : String :=
  ⟨((s.data.dropWhile Char.isWhitespace).reverse.dropWhile Char.isWhitespace).reverse⟩

/-- Split on every non-overlapping occurrence of `sep`, left to right, with a
fuel argument (the fuel is always sufficient when it exceeds the input
length). -/
def splitFuel (sep : List Char) : Nat → List Char → List Char → List (List Char)
  | 0, acc, l => [acc.reverse ++ l]
  | Nat.succ n, acc, l =>
    if isPrefixB sep l then
      acc.reverse :: splitFuel sep n [] (l.drop sep.length)
    else
      match l with
      | [] => [acc.reverse]
      | c :: t => splitFuel sep n (c :: acc) t

/-- Models Python's `s.split(sep)` for a non-empty separator. -/
def splitOnStr (s sep : String) : List String :=
  if sep.data.isEmpty then [s]
  else (splitFuel sep.data (s.data.length + 1) [] s.data).map (fun l => ⟨l⟩)

/-- Boolean: the list starts with a dot character. -/
def headIsDot : List Char → Bool
  | c :: _ => c == '.'
  | [] => false

/-- Boolean: the list starts with a closing parenthesis. -/
def headIsClose : List Char → Bool
  | c :: _ => c == ')'
  | [] => false

/-- Boolean: the list starts with a dot followed by a digit. -/
def dotDigit : List Char → Bool
  | c :: c2 :: _ => c == '.' && c2.isDigit
  | _ => false

/-- Prefix test for the first alternative of `numbering_pattern`,
`\d+(?:\.\d+)+\.?`: one or more digits, a dot, and at least one more digit
(the optional trailing dot and further groups never constrain an unanchored
prefix match). -/
def multiDotPat (l : List Char) : Bool :=
  match l with
  | c :: rest => c.isDigit && dotDigit (rest.dropWhile Char.isDigit)
  | [] => false

/-- Prefix test for `\d+\.`: one or more digits followed by a dot. -/
def numDotPat (l : List Char) : Bool :=
  match l with
  | c :: rest => c.isDigit && headIsDot (rest.dropWhile Char.isDigit)
  | [] => false

/-- Prefix test for `\(\d+\)`: an opening parenthesis, one or more digits and
a closing parenthesis. -/
def parenNumPat (l : List Char) : Bool :=
  match l with
  | c :: c2 :: rest => c == '(' && c2.isDigit && headIsClose (rest.dropWhile Char.isDigit)
  | _ => false

/-- The `numbering_pattern` of `parse_docx`:
`^(\d+(?:\.\d+)+\.?|\d+\.|\(\d+\))`, trying the multi-level alternative, then
`N.`, then `(N)`. -/
def numberingPat (s : String) : Bool :=
  multiDotPat s.data || numDotPat s.data || parenNumPat s.data

/-- List-level form of `drug_pattern`. -/
def drugPatL : List Char → Bool
  | c :: c2 :: c3 :: _ => c == '9' && c2 == '.' && c3.isDigit
  | _ => false

/-- The `drug_pattern` of `parse_docx`: `^9\.\d+\.?\s*.*` matches exactly when the
text starts with `9.` followed by a digit (everything after `9\.\d+` is
optional in an unanchored match). -/
def drugPat (s : String) : Bool :=
  drugPatL s.data

/-- List-level form of `parent_pattern`. -/
def parentPatL : List Char → Bool
  | c :: c2 :: rest => c == '>' && c2 == ' ' && numDotPat rest
  | _ => false

/-- The `parent_pattern` of `classify_and_format`: `^> \d+\.`. -/
def parentPat (s : String) : Bool :=
  parentPatL s.data

/-- List-level form of `child_pattern`. -/
def childPatL : List Char → Bool
  | c :: c2 :: rest => c == '>' && c2 == ' ' && parenNumPat rest
  | _ => false

/-- The `child_pattern` of `classify_and_format`: `^> \(\d+\)`. -/
def childPat (s : String) : Bool :=
  childPatL s.data

/-- Name cleaning, `re.split(r'[:：]', text)[0].strip()`: the text up to the first half- or
full-width colon, stripped. -/
def cleanName (text : String) : String :=
  strip ⟨text.data.takeWhile (fun c => !(c == ':' || c == '：'))⟩

/-- One parsed section: `{"raw_drug_name": ..., "raw_regulation": ...}`. -/
structure RawSection where
  raw_drug_name : String
  raw_regulation : String
deriving DecidableEq, Repr

/-- One output record: `{"drug_name": ..., "cancer_type": ..., "regulation": ...}`. -/
structure Entry where
  drug_name : String
  cancer_type : String
  regulation : String
deriving DecidableEq, Repr

/-- The loop state of `parse_docx`: the accumulated sections, the current
drug (if a heading has been seen) and the current regulation lines. -/
structure PState where
  acc : List RawSection
  cur : Option String
  lines : List String
deriving DecidableEq, Repr

/-- Flush the current drug (if any) into the parsed data:
`"\n\n".join(current_regulation_lines).strip()`. -/
def flushP (st : PState) : List RawSection :=
  match st.cur with
  | some d => st.acc ++ [⟨d, strip (String.intercalate "\n\n" st.lines)⟩]
  | none => st.acc

/-- The body of the paragraph loop of `parse_docx`. -/
def parseStep (st : PState) (para : String) : PState :=
  let text := strip para
  if text = "" then st
  else if drugPat text then
    ⟨flushP st, some (cleanName text), []⟩
  else
    match st.cur with
    | some _ => ⟨st.acc, st.cur, st.lines ++ [if numberingPat text then "> " ++ text else text]⟩
    | none => st

/-- The function `parse_docx`, embedded over the document's paragraph texts (the DOCX
container reading is an external collaborator; an unreadable file yields `[]`
before this loop is reached). -/
def parse_docx (paras : List String) : List RawSection :=
  flushP (paras.foldl parseStep ⟨[], none, []⟩)

/-- The `SYNONYM_MAPPING` table, in the source's insertion order. -/
def SYNONYM_MAPPING : List (String × String) :=
  [("直腸癌", "結直腸癌"), ("結腸癌", "結直腸癌"), ("大腸癌", "結直腸癌"),
   ("大腸直腸癌", "結直腸癌"), ("結直腸癌", "結直腸癌"),
   ("胃癌", "胃癌"), ("胃食道接合處", "胃癌"),
   ("非小細胞肺癌", "肺癌"), ("肺癌", "肺癌"), ("小細胞肺癌", "小細胞肺癌"),
   ("乳癌", "乳癌"),
   ("胰臟癌", "胰臟癌"), ("胰腺癌", "胰臟癌"),
   ("肝癌", "肝癌"), ("肝細胞癌", "肝癌"),
   ("食道癌", "食道癌"),
   ("膽道癌", "膽道癌"), ("膽管癌", "膽道癌"),
   ("黑色素瘤", "黑色素瘤"),
   ("淋巴瘤", "淋巴瘤"),
   ("白血病", "白血病"),
   ("泌尿道癌", "泌尿道癌"), ("尿路上皮癌", "泌尿道癌"),
   ("腎細胞癌", "腎細胞癌"), ("腎癌", "腎細胞癌"),
   ("頭頸癌", "頭頸癌"), ("口腔癌", "頭頸癌"), ("下咽癌", "頭頸癌"), ("口咽癌", "頭頸癌"),
   ("卵巢癌", "卵巢癌"),
   ("攝護腺癌", "攝護腺癌"), ("前列腺癌", "攝護腺癌"),
   ("甲狀腺癌", "甲狀腺癌"),
   ("腦癌", "腦癌"), ("膠質母細胞瘤", "腦癌"),
   ("骨癌", "骨癌"),
   ("軟組織肉瘤", "軟組織肉瘤"),
   ("子宮頸癌", "子宮頸癌"),
   ("子宮體癌", "子宮體癌"), ("子宮內膜癌", "子宮體癌"),
   ("膀胱癌", "膀胱癌"),
   ("皮膚癌", "皮膚癌"), ("基底細胞癌", "皮膚癌"),
   ("多發性骨髓瘤", "多發性骨髓瘤"),
   ("神經母細胞瘤", "神經母細胞瘤")]

/-- The `reset_keywords`: phrases that force a reset to General. -/
def resetKeywords : List String :=
  ["給付規定：", "給付規定:", "通則：", "通則:"]

/-- The keyword scan of `classify_and_format`: canonical types of all mapping
entries whose keyword occurs in the paragraph, in mapping order (before the
`set()` deduplication). -/
def scanList (p : String) : List String :=
  (SYNONYM_MAPPING.filter (fun kv => containsSub p kv.1)).map (fun kv => kv.2)

/-- Bucket update `type_buckets[c_type].append(para)`, creating the bucket at the end of the
insertion order when the key is new. -/
def appendBucket (tb : List (String × List String)) (k v : String) :
    List (String × List String) :=
  if tb.any (fun kv => kv.1 == k) then
    tb.map (fun kv => if kv.1 == k then (kv.1, kv.2 ++ [v]) else kv)
  else tb ++ [(k, [v])]

/-- The body of the paragraph loop of `classify_and_format`.  The state is the
pair (`current_cancer_types`, `type_buckets`); `σ` models `list(set(...))`,
see the module docstring. -/
def stepPara (σ : List String → List String) (para0 : String)
    (st : List String × List (String × List String)) :
    List String × List (String × List String) :=
  let para := strip para0
  if para = "" then st
  else
    let isReset := resetKeywords.any (fun rk => containsSub para rk)
    let cur :=
      if isReset then ["General"]
      else if childPat para then st.1
      else
        let found := σ (scanList para)
        if parentPat para then
          if found.isEmpty then ["General"] else found
        else
          if found.isEmpty then st.1 else found
    (cur, cur.foldl (fun tb c => appendBucket tb c para) st.2)

/-- The classifier state after the given paragraphs, starting from the
per-section initial state `current_cancer_types = ['General']`, empty
buckets. -/
def classifyStates (σ : List String → List String) (paras : List String) :
    List String × List (String × List String) :=
  paras.foldl (fun st p => stepPara σ p st) (["General"], [])

/-- The `type_buckets` mapping produced for one section. -/
def sectionBuckets (σ : List String → List String) (item : RawSection) :
    List (String × List String) :=
  (classifyStates σ (splitOnStr item.raw_regulation "\n\n")).2

/-- The keys of a bucket mapping, in insertion order. -/
def bucketKeys (tb : List (String × List String)) : List String :=
  tb.map (fun kv => kv.1)

/-- Lookup `type_buckets[k]` (total: the key is always present where it is used). -/
def lookupBucket (tb : List (String × List String)) (k : String) : List String :=
  match tb.find? (fun kv => kv.1 == k) with
  | some kv => kv.2
  | none => []

/-- Key ordering `keys = list(type_buckets.keys()); if 'General' in keys: remove and
re-insert at the front`. -/
def orderKeys (keys : List String) : List String :=
  if "General" ∈ keys then "General" :: keys.erase "General" else keys

/-- The output-generation block of `classify_and_format` for one section. -/
def emitSection (name raw : String) (tb : List (String × List String)) : List Entry :=
  if tb = [] then [⟨name, "未分類", raw⟩]
  else (orderKeys (bucketKeys tb)).map
    (fun k => ⟨name, k, String.intercalate "\n\n" (lookupBucket tb k)⟩)

/-- The per-item body of `classify_and_format`. -/
def classifySection (σ : List String → List String) (item : RawSection) : List Entry :=
  emitSection item.raw_drug_name item.raw_regulation (sectionBuckets σ item)

/-- The function `classify_and_format`, parametrized by the `set` enumeration `σ`. -/
def classify_and_format (σ : List String → List String)
    (raw_data : List RawSection) : List Entry :=
  (raw_data.map (classifySection σ)).flatten

/-- One admissible `set` enumeration: distinct elements in `List.dedup`
order. -/
def canonOrd (l : List String) : List String := l.dedup

/-- A second admissible `set` enumeration: the same distinct elements in the
reverse order (across interpreter runs, Python's hash randomization can
realize different orders for the same two-element set). -/
def revOrd (l : List String) : List String := l.dedup.reverse

/-- The paragraph sequence of the specification's end-to-end scenario. -/
def scenarioParas : List String :=
  ["9.1 DrugX", "1. 肺癌", "(1) Adult dose 100mg", "2. Dosage", "(1) 50mg"]

/-- Specification-side characterization of the numbering grammar actually
implemented: a text is blockquoted iff it starts with one or more digits
followed by a dot, or with a parenthesized digit group.  (Written from the
amended claim wording, to be compared with the implementation
`numberingPat`.) -/
def numberingSpecL (l : List Char) : Prop :=
  (∃ ds rest, ds ≠ [] ∧ (∀ c ∈ ds, c.isDigit = true) ∧ l = ds ++ '.' :: rest) ∨
  (∃ ds rest, ds ≠ [] ∧ (∀ c ∈ ds, c.isDigit = true) ∧ l = '(' :: (ds ++ ')' :: rest))

/-! ## Helper lemmas -/

theorem any_eq_false_of_all_not {α} (p : α → Bool) (l : List α)
    (h : l.all (fun a => !p a) = true) : l.any p = false := by
  rw [List.any_eq_false]
  intro x hx
  have := (List.all_eq_true.mp h) x hx
  simpa using this

theorem scanList_eq_nil (q : String)
    (h : SYNONYM_MAPPING.all (fun kv => !containsSub q kv.1) = true) :
    scanList q = [] := by
  unfold scanList
  rw [List.filter_eq_nil_iff.mpr, List.map_nil]
  intro kv hkv
  have := (List.all_eq_true.mp h) kv hkv
  simpa using this

theorem numDot_not_parenNum (l : List Char) (h : numDotPat l = true) :
    parenNumPat l = false := by
  match l with
  | [] => simp [numDotPat] at h
  | [c] => rfl
  | c :: c2 :: rest =>
    have hd : c.isDigit = true := by
      have := h
      unfold numDotPat at this
      exact (Bool.and_eq_true_iff.mp this).1
    unfold parenNumPat
    have : (c == '(') = false := by
      cases hc : c == '(' with
      | false => rfl
      | true =>
        have : c = '(' := beq_iff_eq.mp hc
        rw [this] at hd
        simp at hd
    simp [this]

theorem parent_not_child (s : String) (h : parentPat s = true) : childPat s = false := by
  unfold parentPat at h
  unfold childPat
  cases hd : s.data with
  | nil => rfl
  | cons c t =>
    cases t with
    | nil => rfl
    | cons c2 rest =>
      rw [hd] at h
      have h3 : numDotPat rest = true := by
        simp only [parentPatL, Bool.and_eq_true] at h
        exact h.2
      simp only [childPatL, numDot_not_parenNum rest h3, Bool.and_false]


/-! ## Claim C1: the end-to-end scenario -/

/-- Claim C1 is false as stated: on the scenario input the pipeline's single
section is named `"9.1 DrugX"` (the heading text up to a colon, which keeps
the `9.1` numbering prefix), not `"DrugX"`, and the regulation texts carry
the `> ` blockquote markers that `parse_docx` prepends to numbered lines. -/
theorem claim1_counterexample :
    (parse_docx scenarioParas).map (fun s => s.raw_drug_name) ≠ ["DrugX"] ∧
    classify_and_format canonOrd (parse_docx scenarioParas) ≠
      [⟨"DrugX", "General", "2. Dosage\n\n(1) 50mg"⟩,
       ⟨"DrugX", "肺癌", "1. 肺癌\n\n(1) Adult dose 100mg"⟩] :=
  ⟨by decide, by decide⟩

/-- Claim C1 (amended): on the five scenario paragraphs the pipeline produces
exactly one section, named `"9.1 DrugX"`, whose stored paragraphs are the
`> `-prefixed numbered lines; `> 1. 肺癌` is Parent-tagged and sets
`active = [肺癌]`, `> (1) Adult dose 100mg` is Child-tagged and inherits it,
`> 2. Dosage` is Parent-tagged with no keyword match and resets
`active = [General]`, `> (1) 50mg` is Child-tagged and inherits General; the
output is the General record followed by the 肺癌 record, with the bucketed
paragraphs joined by blank lines. -/
theorem claim1_theorem :
    parse_docx scenarioParas =
      [⟨"9.1 DrugX", "> 1. 肺癌\n\n> (1) Adult dose 100mg\n\n> 2. Dosage\n\n> (1) 50mg"⟩] ∧
    parentPat "> 1. 肺癌" = true ∧
    (classifyStates canonOrd ["> 1. 肺癌"]).1 = ["肺癌"] ∧
    childPat "> (1) Adult dose 100mg" = true ∧
    (classifyStates canonOrd ["> 1. 肺癌", "> (1) Adult dose 100mg"]).1 = ["肺癌"] ∧
    parentPat "> 2. Dosage" = true ∧
    scanList "> 2. Dosage" = [] ∧
    (classifyStates canonOrd ["> 1. 肺癌", "> (1) Adult dose 100mg", "> 2. Dosage"]).1 =
      ["General"] ∧
    childPat "> (1) 50mg" = true ∧
    (classifyStates canonOrd
        ["> 1. 肺癌", "> (1) Adult dose 100mg", "> 2. Dosage", "> (1) 50mg"]).1 =
      ["General"] ∧
    classify_and_format canonOrd (parse_docx scenarioParas) =
      [⟨"9.1 DrugX", "General", "> 2. Dosage\n\n> (1) 50mg"⟩,
       ⟨"9.1 DrugX", "肺癌", "> 1. 肺癌\n\n> (1) Adult dose 100mg"⟩] :=
  ⟨by decide, by decide, by decide, by decide, by decide, by decide, by decide, by decide,
   by decide, by decide, by decide⟩

/-! ## Claim C2: Child inheritance -/

/-- Claim C2 is false as stated: a Child-tagged (bracket-numbered) paragraph
that contains a reset phrase does alter the active set — the reset check runs
before the hierarchy branch.  After `> 1. 肺癌` the active set is `[肺癌]`,
and processing the Child-tagged `> (1) 通則：另有規定` flips it to
`[General]`. -/
theorem claim2_counterexample :
    childPat (strip "> (1) 通則：另有規定") = true ∧
    (classifyStates canonOrd ["> 1. 肺癌"]).1 = ["肺癌"] ∧
    (classifyStates canonOrd ["> 1. 肺癌", "> (1) 通則：另有規定"]).1 = ["General"] ∧
    (["General"] : List String) ≠ ["肺癌"] :=
  ⟨by decide, by decide, by decide, by decide⟩

/-- Claim C2 (amended): a Child-tagged paragraph that does not contain a
reset phrase leaves the active category set exactly equal to the state
carried from the preceding paragraph (the `{General}` seed for the first
paragraph), and the paragraph is bucketed under that unchanged set.  The
statement holds for an arbitrary enumeration `σ`, so no keyword scan can
influence the result. -/
theorem claim2_theorem (σ : List String → List String) (cur : List String)
    (tb : List (String × List String)) (para : String)
    (hc : childPat (strip para) = true)
    (hres : resetKeywords.all (fun rk => !containsSub (strip para) rk) = true) :
    stepPara σ para (cur, tb) =
      (cur, cur.foldl (fun b c => appendBucket b c (strip para)) tb) := by
  have hne : strip para ≠ "" := by
    intro he
    rw [he] at hc
    exact absurd hc (by decide)
  have hany := any_eq_false_of_all_not _ _ hres
  simp [stepPara, hne, hany, hc]

/-- Witness for `claim2_theorem` at a concrete Child-tagged paragraph. -/
theorem claim2_witness :
    stepPara canonOrd "> (1) 50mg" (["肺癌"], []) =
      (["肺癌"], (["肺癌"] : List String).foldl
        (fun b c => appendBucket b c (strip "> (1) 50mg")) []) :=
  claim2_theorem canonOrd ["肺癌"] [] "> (1) 50mg" (by decide) (by decide)

/-! ## Claim C3: Parent reset -/

/-- Claim C3: a Parent-tagged paragraph with no reset phrase and no
SynonymTable keyword occurring in its text always sets the active category
set to exactly `["General"]`, regardless of the previous state.  (`σ` models
Python's `list(set(...))`; the only fact needed about it is that it maps the
empty scan result to the empty list, which every run satisfies.) -/
theorem claim3_theorem (σ : List String → List String) (h0 : σ [] = [])
    (cur : List String) (tb : List (String × List String)) (para : String)
    (hp : parentPat (strip para) = true)
    (hres : resetKeywords.all (fun rk => !containsSub (strip para) rk) = true)
    (hkw : SYNONYM_MAPPING.all (fun kv => !containsSub (strip para) kv.1) = true) :
    (stepPara σ para (cur, tb)).1 = ["General"] := by
  have hne : strip para ≠ "" := by
    intro he
    rw [he] at hp
    exact absurd hp (by decide)
  have hany := any_eq_false_of_all_not _ _ hres
  have hchild : childPat (strip para) = false := parent_not_child _ hp
  have hscan : scanList (strip para) = [] := scanList_eq_nil _ hkw
  simp [stepPara, hne, hany, hchild, hscan, h0, hp]

/-- Witness for `claim3_theorem`: a keyword-free Parent line resets a
non-General state. -/
theorem claim3_witness :
    (stepPara canonOrd "> 2. Dosage" (["肺癌"], [("肺癌", ["> 1. 肺癌"])])).1 = ["General"] :=
  claim3_theorem canonOrd rfl ["肺癌"] [("肺癌", ["> 1. 肺癌"])] "> 2. Dosage"
    (by decide) (by decide) (by decide)

/-! ## Claim C4: Reset precedence -/

/-- Claim C4: a paragraph containing any reset phrase sets the active set to
exactly `["General"]` and is appended only to the General bucket, regardless
of its hierarchy tag, of any keyword it also contains, and of the previous
state; no further classification rule is evaluated (`σ` is arbitrary, so the
keyword scan cannot influence the result). -/
theorem claim4_theorem (σ : List String → List String) (cur : List String)
    (tb : List (String × List String)) (para : String)
    (h : resetKeywords.any (fun rk => containsSub (strip para) rk) = true) :
    stepPara σ para (cur, tb) = (["General"], appendBucket tb "General" (strip para)) := by
  have hne : strip para ≠ "" := by
    intro he
    rw [he] at h
    exact absurd h (by decide)
  simp [stepPara, hne, h]

/-- Witness for `claim4_theorem`: a Parent-tagged line that contains both a
cancer keyword and a reset phrase still resets to General. -/
theorem claim4_witness :
    stepPara canonOrd "> 1. 肺癌通則：另訂" (["乳癌"], []) =
      (["General"], appendBucket [] "General" (strip "> 1. 肺癌通則：另訂")) :=
  claim4_theorem canonOrd ["乳癌"] [] "> 1. 肺癌通則：另訂" (by decide)

/-! ## Claim C5: determinism across runs -/

/-- Claim C5 concerns a real nondeterminism in the code: the classifier
converts the matched-category set to a list via `list(found_types_set)`, and
Python enumerates a `set` of strings in a hash-seed-dependent order, which
flows into the order of the emitted records.  Both `canonOrd` and `revOrd`
are admissible enumerations (each is a permutation of the distinct matched
categories), yet on a paragraph matching two categories they yield outputs
that differ in record order. -/
theorem claim5_theorem :
    (∀ l, (canonOrd l).Perm l.dedup) ∧ (∀ l, (revOrd l).Perm l.dedup) ∧
    classify_and_format canonOrd (parse_docx ["9.1 DrugX", "1. 胃癌之肺癌"]) ≠
      classify_and_format revOrd (parse_docx ["9.1 DrugX", "1. 胃癌之肺癌"]) :=
  ⟨fun _ => List.Perm.refl _, fun l => List.reverse_perm l.dedup, by decide⟩

/-! ## Claim C6: empty sections -/

theorem flushP_append (st : PState) : ∃ t, flushP st = st.acc ++ t := by
  unfold flushP
  cases hc : st.cur with
  | none => exact ⟨[], by simp⟩
  | some d => exact ⟨_, rfl⟩

theorem parseStep_heading (st : PState) (p : String) (h : drugPat (strip p) = true) :
    parseStep st p = ⟨flushP st, some (cleanName (strip p)), []⟩ := by
  have hne : strip p ≠ "" := by
    intro he
    rw [he] at h
    exact absurd h (by decide)
  simp [parseStep, hne, h]

theorem parseStep_acc_append (st : PState) (p : String) :
    ∃ t, (parseStep st p).acc = st.acc ++ t := by
  by_cases h1 : strip p = ""
  · exact ⟨[], by simp [parseStep, h1]⟩
  · by_cases h2 : drugPat (strip p) = true
    · obtain ⟨t, ht⟩ := flushP_append st
      exact ⟨t, by simp [parseStep, h1, h2, ht]⟩
    · cases hc : st.cur with
      | some d => exact ⟨[], by simp [parseStep, h1, h2, hc]⟩
      | none => exact ⟨[], by simp [parseStep, h1, h2, hc]⟩

theorem parse_acc_foldl (ps : List String) (st : PState) :
    ∃ t, (ps.foldl parseStep st).acc = st.acc ++ t := by
  induction ps generalizing st with
  | nil => exact ⟨[], by simp⟩
  | cons p rest ih =>
    obtain ⟨t1, h1⟩ := parseStep_acc_append st p
    obtain ⟨t2, h2⟩ := ih (parseStep st p)
    exact ⟨t1 ++ t2, by rw [List.foldl_cons, h2, h1, List.append_assoc]⟩

theorem classifySection_empty (σ : List String → List String) (name : String) :
    classifySection σ ⟨name, ""⟩ = [⟨name, "未分類", ""⟩] := by
  unfold classifySection sectionBuckets classifyStates
  have hsplit : splitOnStr "" "\n\n" = [""] := by decide
  have h0 : strip "" = "" := by decide
  simp [hsplit, stepPara, h0, emitSection]

/-- Claim C6 is false as stated: an empty section does produce a section with
an empty regulation, but the emitter's fallback labels its single entry
`未分類` (unclassified), not `General` — with no paragraphs, no bucket is
ever created, so the `{General}` seed never reaches the buckets. -/
theorem claim6_counterexample :
    (classify_and_format canonOrd (parse_docx ["9.1 DrugX", "9.2 DrugY"])).map
        (fun e => e.cancer_type) = ["未分類", "未分類"] ∧
    ("未分類" : String) ≠ "General" ∧
    (classify_and_format canonOrd (parse_docx ["9.1 DrugX", "9.2 DrugY"])).map
        (fun e => e.regulation) = ["", ""] :=
  ⟨by decide, by decide, by decide⟩

/-- Claim C6 (amended): a heading immediately followed by another heading or
by the end of the stream yields a section with an empty regulation, and the
emitter turns such a section into exactly one entry whose category is
`未分類` and whose regulation text is empty. -/
theorem claim6_theorem (σ : List String → List String) (xs ys : List String) (h : String)
    (hh : drugPat (strip h) = true)
    (hys : ys = [] ∨ ∃ h2 ys2, ys = h2 :: ys2 ∧ drugPat (strip h2) = true) :
    (⟨cleanName (strip h), ""⟩ : RawSection) ∈ parse_docx (xs ++ h :: ys) ∧
    classifySection σ ⟨cleanName (strip h), ""⟩ = [⟨cleanName (strip h), "未分類", ""⟩] := by
  refine ⟨?_, classifySection_empty σ _⟩
  have hjoin : strip (String.intercalate "\n\n" ([] : List String)) = "" := by decide
  unfold parse_docx
  rw [List.foldl_append, List.foldl_cons, parseStep_heading _ h hh]
  rcases hys with rfl | ⟨h2, ys2, rfl, hh2⟩
  · rw [List.foldl_nil]
    unfold flushP
    simp [hjoin]
  · rw [List.foldl_cons, parseStep_heading _ h2 hh2]
    obtain ⟨t, ht⟩ := parse_acc_foldl ys2 ⟨flushP ⟨_, some (cleanName (strip h)), []⟩,
      some (cleanName (strip h2)), []⟩
    obtain ⟨t2, ht2⟩ := flushP_append (ys2.foldl parseStep
      ⟨flushP ⟨_, some (cleanName (strip h)), []⟩, some (cleanName (strip h2)), []⟩)
    rw [ht2, ht]
    have hflush : flushP ⟨flushP (xs.foldl parseStep ⟨[], none, []⟩),
        some (cleanName (strip h)), []⟩ =
        flushP (xs.foldl parseStep ⟨[], none, []⟩) ++ [⟨cleanName (strip h), ""⟩] := by
      unfold flushP
      simp [hjoin]
    simp [hflush]

/-- Witness for `claim6_theorem`: `9.1 DrugX` immediately followed by the
heading `9.2 DrugY`. -/
theorem claim6_witness :
    (⟨cleanName (strip "9.1 DrugX"), ""⟩ : RawSection) ∈
      parse_docx (["前言"] ++ "9.1 DrugX" :: ["9.2 DrugY"]) ∧
    classifySection canonOrd ⟨cleanName (strip "9.1 DrugX"), ""⟩ =
      [⟨cleanName (strip "9.1 DrugX"), "未分類", ""⟩] :=
  claim6_theorem canonOrd ["前言"] ["9.2 DrugY"] "9.1 DrugX" (by decide)
    (Or.inr ⟨"9.2 DrugY", [], rfl, by decide⟩)

/-! ## Claim C7: emitter ordering -/

/-- Claim C7: for a section with a non-empty bucket mapping, the emitted
entries are, in order, one entry per key of `orderKeys (bucketKeys ...)` —
General forced first when present, the rest in the bucket mapping's key
order — each carrying the section's drug name and its bucket joined by
blank lines; and the bucket mapping's key order is first-insertion order:
`appendBucket` leaves the key list unchanged for an existing key and appends
a new key at the end. -/
theorem claim7_theorem :
    (∀ (σ : List String → List String) (item : RawSection),
      sectionBuckets σ item ≠ [] →
      classifySection σ item =
        (orderKeys (bucketKeys (sectionBuckets σ item))).map
          (fun k => ⟨item.raw_drug_name, k,
            String.intercalate "\n\n" (lookupBucket (sectionBuckets σ item) k)⟩) ∧
      ("General" ∈ bucketKeys (sectionBuckets σ item) →
        (classifySection σ item).map (fun e => e.cancer_type) =
          "General" :: (bucketKeys (sectionBuckets σ item)).erase "General")) ∧
    (∀ (tb : List (String × List String)) (k v : String),
      bucketKeys (appendBucket tb k v) =
        if k ∈ bucketKeys tb then bucketKeys tb else bucketKeys tb ++ [k]) := by
  constructor
  · intro σ item hB
    constructor
    · unfold classifySection emitSection
      rw [if_neg hB]
    · intro hg
      unfold classifySection emitSection
      rw [if_neg hB, List.map_map]
      have hcomp : ((fun e : Entry => e.cancer_type) ∘ fun k =>
          (⟨item.raw_drug_name, k,
            String.intercalate "\n\n" (lookupBucket (sectionBuckets σ item) k)⟩ : Entry)) =
          id := rfl
      rw [hcomp, List.map_id]
      unfold orderKeys
      rw [if_pos hg]
  · intro tb k v
    unfold appendBucket bucketKeys
    by_cases hmem : k ∈ tb.map (fun kv => kv.1)
    · have hany : tb.any (fun kv => kv.1 == k) = true := by
        rw [List.any_eq_true]
        obtain ⟨kv, hkv, hEq⟩ := List.mem_map.mp hmem
        exact ⟨kv, hkv, by simp [hEq]⟩
      rw [if_pos hany, if_pos hmem, List.map_map]
      apply List.map_congr_left
      intro kv _
      by_cases hk : kv.1 = k
      · simp [hk]
      · simp [hk]
    · have hany : tb.any (fun kv => kv.1 == k) = false := by
        rw [List.any_eq_false]
        intro kv hkv hEq
        exact hmem (List.mem_map.mpr ⟨kv, hkv, by simpa using hEq⟩)
      rw [if_neg (by simp [hany]), if_neg hmem, List.map_append]
      rfl

/-- Witness for `claim7_theorem` on a concrete one-bucket section. -/
theorem claim7_witness :
    classifySection canonOrd ⟨"9.1 D", "> 1. 肺癌"⟩ =
      (orderKeys (bucketKeys (sectionBuckets canonOrd ⟨"9.1 D", "> 1. 肺癌"⟩))).map
        (fun k => ⟨"9.1 D", k,
          String.intercalate "\n\n" (lookupBucket (sectionBuckets canonOrd ⟨"9.1 D", "> 1. 肺癌"⟩) k)⟩) :=
  (claim7_theorem.1 canonOrd ⟨"9.1 D", "> 1. 肺癌"⟩ (by decide)).1

/-! ## Claim C8: multiplicity -/

/-- Claim C8: a non-Child paragraph with no reset phrase whose text matches
at least one keyword sets the active set to the distinct matched canonical
categories (one per category, even when several keywords map to the same
canonical category: the length of the new active set is the number of
distinct matched categories and it has no duplicates) and appends the
paragraph once to each of those buckets. -/
theorem claim8_theorem (σ : List String → List String)
    (hσ : ∀ l, (σ l).Perm l.dedup)
    (cur : List String) (tb : List (String × List String)) (para : String)
    (hres : resetKeywords.all (fun rk => !containsSub (strip para) rk) = true)
    (hchild : childPat (strip para) = false)
    (hscan : scanList (strip para) ≠ []) :
    stepPara σ para (cur, tb) =
      (σ (scanList (strip para)),
       (σ (scanList (strip para))).foldl
         (fun b c => appendBucket b c (strip para)) tb) ∧
    (σ (scanList (strip para))).length = (scanList (strip para)).dedup.length ∧
    (σ (scanList (strip para))).Nodup := by
  have hne : strip para ≠ "" := by
    intro he
    rw [he] at hscan
    exact hscan (by decide)
  have hany := any_eq_false_of_all_not _ _ hres
  have hperm := hσ (scanList (strip para))
  have hnil : σ (scanList (strip para)) ≠ [] := by
    intro h0
    rw [h0] at hperm
    exact hscan ((List.dedup_eq_nil _).mp (List.perm_nil.mp hperm.symm))
  have hfe : (σ (scanList (strip para))).isEmpty = false := by
    cases hh : (σ (scanList (strip para))).isEmpty with
    | false => rfl
    | true => exact absurd (List.isEmpty_iff.mp hh) hnil
  refine ⟨?_, hperm.length_eq, (hperm.nodup_iff).mpr (List.nodup_dedup _)⟩
  simp [stepPara, hne, hany, hchild, hfe]

/-- Witness for `claim8_theorem`: two keywords of the same canonical category
(直腸癌, 結腸癌 → 結直腸癌) plus 胃癌 give exactly two buckets. -/
theorem claim8_witness :
    stepPara canonOrd "> 1. 直腸癌及結腸癌與胃癌" (["General"], []) =
      (canonOrd (scanList (strip "> 1. 直腸癌及結腸癌與胃癌")),
       (canonOrd (scanList (strip "> 1. 直腸癌及結腸癌與胃癌"))).foldl
         (fun b c => appendBucket b c (strip "> 1. 直腸癌及結腸癌與胃癌")) []) ∧
    (canonOrd (scanList (strip "> 1. 直腸癌及結腸癌與胃癌"))).length =
      (scanList (strip "> 1. 直腸癌及結腸癌與胃癌")).dedup.length ∧
    (canonOrd (scanList (strip "> 1. 直腸癌及結腸癌與胃癌"))).Nodup :=
  claim8_theorem canonOrd (fun _ => List.Perm.refl _) ["General"] []
    "> 1. 直腸癌及結腸癌與胃癌" (by decide) (by decide) (by decide)

/-! ## Claim C9: hierarchy numbering grammar -/

theorem dropWhile_append_of_all {α} (p : α → Bool) (ds rest : List α)
    (h : ∀ c ∈ ds, p c = true) :
    (ds ++ rest).dropWhile p = rest.dropWhile p := by
  induction ds with
  | nil => rfl
  | cons c t ih =>
    have hc : p c = true := h c (List.mem_cons_self c t)
    rw [List.cons_append, List.dropWhile_cons_of_pos hc]
    exact ih (fun x hx => h x (List.mem_cons_of_mem _ hx))

theorem dotDigit_imp_headIsDot (l : List Char) (h : dotDigit l = true) :
    headIsDot l = true := by
  match l with
  | [] => simp [dotDigit] at h
  | [c] => simp [dotDigit] at h
  | c :: c2 :: t =>
    simp only [dotDigit, Bool.and_eq_true] at h
    simp only [headIsDot]
    exact h.1

theorem multiDot_imp_numDot (l : List Char) (h : multiDotPat l = true) :
    numDotPat l = true := by
  match l with
  | [] => simp [multiDotPat] at h
  | c :: rest =>
    simp only [multiDotPat, Bool.and_eq_true] at h
    simp only [numDotPat, Bool.and_eq_true]
    exact ⟨h.1, dotDigit_imp_headIsDot _ h.2⟩

theorem numberingPat_characterization (s : String) :
    numberingPat s = true ↔ numberingSpecL s.data := by
  unfold numberingPat numberingSpecL
  constructor
  · intro h
    simp only [Bool.or_eq_true] at h
    have h2 : numDotPat s.data = true ∨ parenNumPat s.data = true := by
      rcases h with (hm | hn) | hp
      · exact Or.inl (multiDot_imp_numDot _ hm)
      · exact Or.inl hn
      · exact Or.inr hp
    rcases h2 with hn | hp
    · left
      cases hd : s.data with
      | nil => rw [hd] at hn; simp [numDotPat] at hn
      | cons c rest =>
        rw [hd] at hn
        simp only [numDotPat, Bool.and_eq_true] at hn
        obtain ⟨hc, hh⟩ := hn
        cases he : rest.dropWhile Char.isDigit with
        | nil => rw [he] at hh; simp [headIsDot] at hh
        | cons d tail =>
          rw [he] at hh
          simp only [headIsDot] at hh
          have hdq : d = '.' := beq_iff_eq.mp hh
          refine ⟨c :: rest.takeWhile Char.isDigit, tail, by simp, ?_, ?_⟩
          · intro x hx
            rcases List.mem_cons.mp hx with rfl | hx2
            · exact hc
            · exact List.mem_takeWhile_imp hx2
          · have h3 : rest.takeWhile Char.isDigit ++ '.' :: tail = rest := by
              rw [← hdq, ← he]
              exact List.takeWhile_append_dropWhile _ _
            rw [List.cons_append, h3]
    · right
      cases hd : s.data with
      | nil => rw [hd] at hp; simp [parenNumPat] at hp
      | cons c t =>
        cases t with
        | nil => rw [hd] at hp; simp [parenNumPat] at hp
        | cons c2 rest =>
          rw [hd] at hp
          simp only [parenNumPat, Bool.and_eq_true] at hp
          obtain ⟨⟨hc, hc2⟩, hh⟩ := hp
          have hcq : c = '(' := beq_iff_eq.mp hc
          cases he : rest.dropWhile Char.isDigit with
          | nil => rw [he] at hh; simp [headIsClose] at hh
          | cons d tail =>
            rw [he] at hh
            simp only [headIsClose] at hh
            have hdq : d = ')' := beq_iff_eq.mp hh
            refine ⟨c2 :: rest.takeWhile Char.isDigit, tail, by simp, ?_, ?_⟩
            · intro x hx
              rcases List.mem_cons.mp hx with rfl | hx2
              · exact hc2
              · exact List.mem_takeWhile_imp hx2
            · have h3 : rest.takeWhile Char.isDigit ++ ')' :: tail = rest := by
                rw [← hdq, ← he]
                exact List.takeWhile_append_dropWhile _ _
              rw [hcq, List.cons_append, h3]
  · intro h
    simp only [Bool.or_eq_true]
    rcases h with ⟨ds, rest, hne, hdig, hl⟩ | ⟨ds, rest, hne, hdig, hl⟩
    · left; right
      cases ds with
      | nil => exact absurd rfl hne
      | cons d ds2 =>
        have hdd : d.isDigit = true := hdig d (List.mem_cons_self _ _)
        rw [hl, List.cons_append]
        simp only [numDotPat, Bool.and_eq_true]
        refine ⟨hdd, ?_⟩
        rw [dropWhile_append_of_all _ ds2 _
          (fun x hx => hdig x (List.mem_cons_of_mem _ hx))]
        rw [List.dropWhile_cons_of_neg (by decide)]
        rfl
    · right
      cases ds with
      | nil => exact absurd rfl hne
      | cons d ds2 =>
        have hdd : d.isDigit = true := hdig d (List.mem_cons_self _ _)
        rw [hl, List.cons_append]
        simp only [parenNumPat, Bool.and_eq_true]
        refine ⟨⟨by decide, hdd⟩, ?_⟩
        rw [dropWhile_append_of_all _ ds2 _
          (fun x hx => hdig x (List.mem_cons_of_mem _ hx))]
        rw [List.dropWhile_cons_of_neg (by decide)]
        rfl

/-- Claim C9 is false as stated: no roman-numeral pattern exists in the code.
An upper-case roman line such as `II. 肺癌` matches none of the implemented
numbering alternatives, is stored without a `> ` marker, is neither
Parent- nor Child-tagged, and is handled as Plain — a sticky keyword scan is
performed on it and updates the active set, which contradicts the
inherit-without-scan handling the claimed roman (deeper-nesting) tag would
require. -/
theorem claim9_counterexample :
    numberingPat "II. 肺癌" = false ∧
    numberingPat "iv. 肺癌" = false ∧
    childPat "II. 肺癌" = false ∧
    parentPat "II. 肺癌" = false ∧
    (stepPara canonOrd "II. 肺癌" (["胃癌"], [])).1 = ["肺癌"] ∧
    (["肺癌"] : List String) ≠ ["胃癌"] :=
  ⟨by decide, by decide, by decide, by decide, by decide, by decide⟩

/-- Claim C9 (amended): the numbering grammar tries, in order, multi-level
digit numbering (`N.N...`), top-level digit numbering (`N.`), then bracket
digit numbering (`(N)`); together these match exactly the texts that start
with digits followed by a dot or with a parenthesized digit group.  No roman
patterns are tried: roman-numbered lines match nothing and are treated as
Plain (sticky scan), as the concrete conjuncts show. -/
theorem claim9_theorem :
    (∀ s : String, numberingPat s = true ↔ numberingSpecL s.data) ∧
    numberingPat "1. x" = true ∧
    numberingPat "9.18.1 x" = true ∧
    numberingPat "(1) x" = true ∧
    numberingPat "II. x" = false ∧
    numberingPat "iv. x" = false ∧
    (stepPara canonOrd "II. 肺癌" (["胃癌"], [])).1 = ["肺癌"] :=
  ⟨numberingPat_characterization, by decide, by decide, by decide, by decide,
   by decide, by decide⟩

/-! ## Claim C10: heading pattern swallows sub-numbered lines -/

theorem drugPat_quote (t : String) : drugPat ("> " ++ t) = false := by
  unfold drugPat
  have hd : ("> " ++ t).data = '>' :: ' ' :: t.data := rfl
  rw [hd]
  cases t.data with
  | nil => rfl
  | cons c r => rfl

theorem parseStep_lines_ok (st : PState) (p : String)
    (h : st.lines.all (fun l => !drugPat l) = true) :
    (parseStep st p).lines.all (fun l => !drugPat l) = true := by
  by_cases h1 : strip p = ""
  · simp [parseStep, h1, h]
  · by_cases h2 : drugPat (strip p) = true
    · simp [parseStep, h1, h2]
    · cases hc : st.cur with
      | none => simp [parseStep, h1, h2, hc, h]
      | some d =>
        simp only [parseStep, h1, h2, hc, if_false, if_neg h1]
        rw [if_neg (by simp [h2])]
        simp only [List.all_append, Bool.and_eq_true]
        refine ⟨h, ?_⟩
        by_cases h3 : numberingPat (strip p) = true
        · simp [h3, drugPat_quote]
        · simp [h3, h2]

theorem foldl_lines_ok (ps : List String) (st : PState)
    (h : st.lines.all (fun l => !drugPat l) = true) :
    ((ps.foldl parseStep st).lines).all (fun l => !drugPat l) = true := by
  induction ps generalizing st with
  | nil => exact h
  | cons p t ih => exact ih _ (parseStep_lines_ok st p h)

/-- Claim C10: any paragraph whose stripped text starts with `9.` followed by
a digit is unconditionally treated as a drug heading — the current section is
flushed and a new one is started, whatever the parser state (so a
sub-numbered line like `9.18.1 ...` inside a section's body also starts a new
section); consequently, at every point of the stream, no line stored in the
open section's paragraph list matches the heading pattern. -/
theorem claim10_theorem :
    (∀ (st : PState) (p : String), drugPat (strip p) = true →
      parseStep st p = ⟨flushP st, some (cleanName (strip p)), []⟩) ∧
    (∀ ps : List String,
      ((ps.foldl parseStep ⟨[], none, []⟩).lines).all (fun l => !drugPat l) = true) :=
  ⟨parseStep_heading, fun ps => foldl_lines_ok ps ⟨[], none, []⟩ (by decide)⟩

/-- Witness for `claim10_theorem`: the sub-numbered line `9.18.1 用法` cuts a
new section out of an open section's body. -/
theorem claim10_witness :
    parseStep ⟨[], some "9.1 A", ["> 1. x"]⟩ "9.18.1 用法" =
      ⟨flushP ⟨[], some "9.1 A", ["> 1. x"]⟩, some (cleanName (strip "9.18.1 用法")), []⟩ ∧
    ((["9.1 A", "1. x", "9.2 B"].foldl parseStep ⟨[], none, []⟩).lines).all
      (fun l => !drugPat l) = true :=
  ⟨claim10_theorem.1 ⟨[], some "9.1 A", ["> 1. x"]⟩ "9.18.1 用法" (by decide),
   claim10_theorem.2 ["9.1 A", "1. x", "9.2 B"]⟩
